import Mathlib

/-!
Verification of the `mews` WebSocket library core (`src/lib.rs`) via a
shallow embedding in Lean 4.

Bytes are modelled as `Nat` values below 256 and 32-bit words as `Nat`
values reduced modulo `2 ^ 32` at every operation that can overflow.
The SHA-1 and base64 algorithms used by `sign` (the `sha1` and `base64`
crates, both standard algorithms) are embedded in full; the incremental
`Sha1` hasher API (`new` / `update` / `finalize`) is modelled as an
accumulating byte buffer, which is its documented semantics.
-/

namespace Mews

/-- Truncate to a 32-bit word. -/
def w32 (n : Nat) : Nat := n % 4294967296

/-- Rotate a 32-bit word left by `s` bits. -/
def rotl (s n : Nat) : Nat := ((n <<< s) % 4294967296) ||| (n >>> (32 - s))

/-- Big-endian byte representation of `v` in exactly `n` bytes. -/
def beBytes : Nat → Nat → List Nat
  | 0, _ => []
  | n + 1, v => beBytes n (v / 256) ++ [v % 256]

/-- Value of a big-endian byte sequence. -/
def beVal (l : List Nat) : Nat := l.foldl (fun a b => a * 256 + b) 0

theorem beBytes_length (n v : Nat) : (beBytes n v).length = n := by
  induction n generalizing v with
  | zero => rfl
  | succ n ih => simp [beBytes, ih]

/-- UTF-8 encoding of a single character. -/
def utf8EncodeChar (c : Char) : List Nat :=
  let n := c.toNat
  if n < 128 then [n]
  else if n < 2048 then [192 + n / 64, 128 + n % 64]
  else if n < 65536 then [224 + n / 4096, 128 + n / 64 % 64, 128 + n % 64]
  else [240 + n / 262144, 128 + n / 4096 % 64, 128 + n / 64 % 64, 128 + n % 64]

/-- The bytes of a string, UTF-8 encoded (Rust's `str::as_bytes`). -/
def strBytes (s : String) : List Nat := s.data.flatMap utf8EncodeChar

/-! ## SHA-1 (FIPS 180-4), as used by the `sha1` crate -/

/-- SHA-1 round constant for round `t`. -/
def sha1K (t : Nat) : Nat :=
  if t < 20 then 0x5A827999
  else if t < 40 then 0x6ED9EBA1
  else if t < 60 then 0x8F1BBCDC
  else 0xCA62C1D6

/-- SHA-1 round function for round `t`. -/
def sha1F (t b c d : Nat) : Nat :=
  if t < 20 then (b &&& c) ||| ((b ^^^ 0xFFFFFFFF) &&& d)
  else if t < 40 then b ^^^ c ^^^ d
  else if t < 60 then (b &&& c) ||| (b &&& d) ||| (c &&& d)
  else b ^^^ c ^^^ d

/-- One SHA-1 round on the working state `(a, b, c, d, e)`. -/
def sha1Round (t wt : Nat) (st : Nat × Nat × Nat × Nat × Nat) :
    Nat × Nat × Nat × Nat × Nat :=
  let (a, b, c, d, e) := st
  (w32 (rotl 5 a + sha1F t b c d + e + sha1K t + wt), a, rotl 30 b, c, d)

/-- Run SHA-1 rounds `t, t+1, ...` over the schedule words `ws`. -/
def sha1Rounds (t : Nat) (ws : List Nat) (st : Nat × Nat × Nat × Nat × Nat) :
    Nat × Nat × Nat × Nat × Nat :=
  match ws with
  | [] => st
  | w :: ws => sha1Rounds (t + 1) ws (sha1Round t w st)

/-- Group a byte list into big-endian 32-bit words. -/
def words16 : List Nat → List Nat
  | b0 :: b1 :: b2 :: b3 :: rest =>
      (((b0 * 256 + b1) * 256 + b2) * 256 + b3) :: words16 rest
  | _ => []

/-- Next schedule word, given the previous words in reverse order. -/
def sha1NextW (acc : List Nat) : Nat :=
  rotl 1 (acc.getD 2 0 ^^^ acc.getD 7 0 ^^^ acc.getD 13 0 ^^^ acc.getD 15 0)

/-- Extend the reversed schedule by `n` more words, then restore order. -/
def sha1Extend (acc : List Nat) : Nat → List Nat
  | 0 => acc.reverse
  | n + 1 => sha1Extend (sha1NextW acc :: acc) n

/-- The 80-word message schedule of one 64-byte block. -/
def sha1Schedule (block : List Nat) : List Nat :=
  sha1Extend (words16 block).reverse 64

/-- Compress one 64-byte block into the hash state. -/
def sha1Block (h : Nat × Nat × Nat × Nat × Nat) (block : List Nat) :
    Nat × Nat × Nat × Nat × Nat :=
  let (h0, h1, h2, h3, h4) := h
  let (a, b, c, d, e) := sha1Rounds 0 (sha1Schedule block) (h0, h1, h2, h3, h4)
  (w32 (h0 + a), w32 (h1 + b), w32 (h2 + c), w32 (h3 + d), w32 (h4 + e))

/-- SHA-1 padding: `0x80`, zeros, then the bit length in 8 big-endian bytes. -/
def sha1Pad (msg : List Nat) : List Nat :=
  let l := msg.length
  msg ++ [128] ++ List.replicate ((64 - (l + 9) % 64) % 64) 0 ++ beBytes 8 (8 * l)

/-- Walk the bytes, emitting each completed 64-byte chunk; `cur` is the
partial chunk gathered so far. -/
def chunksGo (cur : List Nat) : List Nat → List (List Nat)
  | [] => if cur = [] then [] else [cur]
  | b :: rest =>
      let cur := cur ++ [b]
      if cur.length = 64 then cur :: chunksGo [] rest else chunksGo cur rest

/-- Split a list into 64-byte chunks. -/
def chunks64 (l : List Nat) : List (List Nat) := chunksGo [] l

/-- The initial SHA-1 hash state. -/
def sha1Init : Nat × Nat × Nat × Nat × Nat :=
  (0x67452301, 0xEFCDAB89, 0x98BADCFE, 0x10325476, 0xC3D2E1F0)

/-- The 20-byte SHA-1 digest of a byte sequence. -/
def sha1 (msg : List Nat) : List Nat :=
  let (h0, h1, h2, h3, h4) := (chunks64 (sha1Pad msg)).foldl sha1Block sha1Init
  beBytes 4 h0 ++ beBytes 4 h1 ++ beBytes 4 h2 ++ beBytes 4 h3 ++ beBytes 4 h4

/-- The incremental hasher of the `sha1` crate: `update` appends bytes to the
message being hashed, `finalize` hashes the accumulated message. -/
structure Sha1Ctx where
  data : List Nat

def Sha1Ctx.fresh : Sha1Ctx := ⟨[]⟩

def Sha1Ctx.update (ctx : Sha1Ctx) (bytes : List Nat) : Sha1Ctx :=
  ⟨ctx.data ++ bytes⟩

def Sha1Ctx.finalize (ctx : Sha1Ctx) : List Nat := sha1 ctx.data

/-! ## Base64 (RFC 4648 standard alphabet, with padding) -/

def b64Alphabet : List Char :=
  "ABCDEFGHIJKLMNOPQRSTUVWXYZabcdefghijklmnopqrstuvwxyz0123456789+/".data

def b64Char (n : Nat) : Char := b64Alphabet.getD n 'A'

/-- Standard base64 encoding of a byte sequence, with `=` padding. -/
def b64Encode : List Nat → List Char
  | [] => []
  | [b0] =>
      [b64Char (b0 / 4), b64Char (b0 % 4 * 16), '=', '=']
  | [b0, b1] =>
      [b64Char (b0 / 4), b64Char (b0 % 4 * 16 + b1 / 16), b64Char (b1 % 16 * 4), '=']
  | b0 :: b1 :: b2 :: rest =>
      b64Char (b0 / 4) :: b64Char (b0 % 4 * 16 + b1 / 16) ::
        b64Char (b1 % 16 * 4 + b2 / 64) :: b64Char (b2 % 64) :: b64Encode rest

/-! ## `sign` (src/lib.rs, lines 143-153) -/

/-- The fixed WebSocket GUID appended to the key before hashing. -/
def wsGuid : String := "258EAFA5-E914-47DA-95CA-C5AB0DC85B11"

/-- `fn sign(sec_websocket_key: &str) -> String` from src/lib.rs: feed the
key bytes and then the GUID bytes to a fresh SHA-1 hasher, base64-encode
the digest. -/
def sign (sec_websocket_key : String) : String :=
  let sha1ctx := Sha1Ctx.fresh
  let sha1ctx := sha1ctx.update (strBytes sec_websocket_key)
  let sha1ctx := sha1ctx.update (strBytes wsGuid)
  String.mk (b64Encode sha1ctx.finalize)

/-! ## Config and session construction (src/lib.rs, lines 61-141) -/

/-- Rust's `usize::MAX` on a 64-bit target. -/
def USIZE_MAX : Nat := 18446744073709551615

/-- `struct Config` from src/lib.rs. `usize` fields are modelled as `Nat`. -/
structure Config where
  write_buffer_size      : Nat
  max_write_buffer_size  : Nat
  accept_unmasked_frames : Bool
  max_message_size       : Option Nat
  max_frame_size         : Option Nat
deriving DecidableEq

/-- `impl Default for Config` from src/lib.rs, lines 81-91. -/
def Config.default : Config where
  write_buffer_size      := 128 * 1024
  max_write_buffer_size  := USIZE_MAX
  accept_unmasked_frames := false
  max_message_size       := some (64 <<< 20)
  max_frame_size         := some (16 <<< 20)

/-- `struct WebSocket` from src/lib.rs, lines 61-67. The handler (an opaque
caller-supplied closure in the source) is the type parameter `H`. -/
structure WebSocket (H : Type) where
  sec_websocket_key : String
  config            : Config
  handler           : H

/-- `struct WebSocketContext` from src/lib.rs, lines 94-96. -/
structure WebSocketContext where
  sec_websocket_key : String

def WebSocketContext.new (sec_websocket_key : String) : WebSocketContext :=
  ⟨sec_websocket_key⟩

/-- `WebSocketContext::connect_with` from src/lib.rs, lines 129-141: the
`IntoHandler` trait implementation chosen by Rust is passed explicitly as
`into_handler`. -/
def WebSocketContext.connect_with {T H : Type} (ctx : WebSocketContext)
    (config : Config) (handler : T) (into_handler : T → H) : WebSocket H where
  sec_websocket_key := sign ctx.sec_websocket_key
  config            := config
  handler           := into_handler handler

/-- `WebSocketContext::connect` from src/lib.rs, lines 113-118. -/
def WebSocketContext.connect {T H : Type} (ctx : WebSocketContext)
    (handler : T) (into_handler : T → H) : WebSocket H :=
  ctx.connect_with Config.default handler into_handler

/-! ## Frame codec

The frame codec lives in the crate's `frame` module, which is declared in
src/lib.rs (`mod frame;`) but whose file is not part of the sources
available here; the definitions below are modelled from the spec, §4.1. -/

/-- Modelled from the spec: the payload masking of the missing `frame`
module — starting at payload index `i`, XOR each byte with
`mask_key[index mod 4]`. -/
def maskFrom (key : List Nat) (i : Nat) : List Nat → List Nat
  | [] => []
  | b :: rest => (b ^^^ key.getD (i % 4) 0) :: maskFrom key (i + 1) rest

/-- Modelled from the spec: mask (or unmask — the operation is its own
inverse) a payload with a 4-byte key. -/
def maskBytes (key payload : List Nat) : List Nat := maskFrom key 0 payload

/-- Modelled from the spec: the six WebSocket opcodes. -/
inductive Opcode where
  | continuation | text | binary | close | ping | pong
deriving DecidableEq

/-- The wire nibble of each opcode. -/
def Opcode.toNat : Opcode → Nat
  | .continuation => 0
  | .text => 1
  | .binary => 2
  | .close => 8
  | .ping => 9
  | .pong => 10

/-- Parse an opcode nibble; unknown opcodes are a protocol error. -/
def Opcode.ofNat? : Nat → Option Opcode
  | 0 => some .continuation
  | 1 => some .text
  | 2 => some .binary
  | 8 => some .close
  | 9 => some .ping
  | 10 => some .pong
  | _ => none

/-- Control opcodes are ping, pong and close. -/
def Opcode.isControl : Opcode → Bool
  | .close | .ping | .pong => true
  | _ => false

/-- Modelled from the spec: a single WebSocket frame (spec §3). `mask_key`
is meaningful only when `masked` is set. -/
structure Frame where
  fin      : Bool
  opcode   : Opcode
  masked   : Bool
  mask_key : List Nat
  payload  : List Nat
deriving DecidableEq

/-- The 7-bit length field: the length itself up to 125, else the
16-bit-extended marker 126, else the 64-bit-extended marker 127. -/
def lenCode (n : Nat) : Nat :=
  if n ≤ 125 then n else if n ≤ 65535 then 126 else 127

/-- The extended length bytes following the 7-bit length field. -/
def lenExt (n : Nat) : List Nat :=
  if n ≤ 125 then [] else if n ≤ 65535 then beBytes 2 n else beBytes 8 n

/-- Modelled from the spec: `Encode(Frame) → bytes` (§4.1). First byte:
FIN bit, zero reserved bits, opcode nibble. Second byte: MASK bit and the
7-bit length field, then the extended length, then the masking key (iff
masked) and the (masked) payload. -/
def Frame.encode (f : Frame) : List Nat :=
  let n := f.payload.length
  let body := if f.masked then f.mask_key ++ maskBytes f.mask_key f.payload
              else f.payload
  ((if f.fin then 128 else 0) + f.opcode.toNat) ::
    ((if f.masked then 128 else 0) + lenCode n) :: (lenExt n ++ body)

/-- Read the true payload length after a 7-bit length field of `len7`:
values up to 125 stand for themselves, 126 takes the next 16 bits
big-endian, 127 the next 64 bits big-endian, rejecting lengths with the
high bit set. Returns the length and the remaining bytes. -/
def readLen (len7 : Nat) (rest : List Nat) : Option (Nat × List Nat) :=
  if len7 ≤ 125 then some (len7, rest)
  else if len7 = 126 then
    match rest with
    | x :: y :: r => some (x * 256 + y, r)
    | _ => none
  else
    if 8 ≤ rest.length then
      let v := beVal (rest.take 8)
      if v < 2 ^ 63 then some (v, rest.drop 8) else none
    else none

/-- Modelled from the spec: `Decode(bytes) → Frame | error` (§4.1), for one
complete frame. Fails on nonzero reserved bits, unknown opcodes, 64-bit
lengths with the high bit set, fragmented or oversized control frames,
unmasked frames when `accept_unmasked` is off, and byte counts that do
not match the declared length. -/
def Frame.decode (accept_unmasked : Bool) : List Nat → Option Frame
  | b0 :: b1 :: rest =>
    if b0 / 16 % 8 ≠ 0 then none else
    match Opcode.ofNat? (b0 % 16) with
    | none => none
    | some op =>
      let fin : Bool := decide (128 ≤ b0)
      let masked : Bool := decide (128 ≤ b1)
      match readLen (b1 % 128) rest with
      | none => none
      | some (len, rest2) =>
        if op.isControl ∧ (fin = false ∨ 125 < len) then none else
        if masked = false ∧ accept_unmasked = false then none else
        if masked then
          if rest2.length = 4 + len then
            some { fin := fin, opcode := op, masked := true,
                   mask_key := rest2.take 4,
                   payload := maskBytes (rest2.take 4) (rest2.drop 4) }
          else none
        else
          if rest2.length = len then
            some { fin := fin, opcode := op, masked := false,
                   mask_key := [], payload := rest2 }
          else none
  | _ => none

/-- Well-formed frame (spec §3 and §4.1): payload representable (below
`2 ^ 63`), control frames unfragmented with payloads of at most 125
bytes, and a mask key of exactly 4 bytes present iff the frame is
masked. -/
def Frame.wf (f : Frame) : Prop :=
  f.payload.length < 2 ^ 63 ∧
  (f.opcode.isControl = true → f.fin = true ∧ f.payload.length ≤ 125) ∧
  (f.masked = true → f.mask_key.length = 4) ∧
  (f.masked = false → f.mask_key = [])

instance (f : Frame) : Decidable f.wf := by
  unfold Frame.wf; infer_instance

/-! ## Helper lemmas -/

theorem sign_eq (k : String) :
    sign k = String.mk (b64Encode (sha1 (strBytes k ++ strBytes wsGuid))) := by
  simp [sign, Sha1Ctx.fresh, Sha1Ctx.update, Sha1Ctx.finalize]

theorem sha1_length (msg : List Nat) : (sha1 msg).length = 20 := by
  unfold sha1
  rcases (chunks64 (sha1Pad msg)).foldl sha1Block sha1Init with ⟨h0, h1, h2, h3, h4⟩
  simp [beBytes_length]

theorem b64Encode_length : ∀ l : List Nat,
    (b64Encode l).length = 4 * ((l.length + 2) / 3)
  | [] => rfl
  | [_] => by simp [b64Encode]
  | [_, _] => by simp [b64Encode]
  | _ :: _ :: _ :: rest => by
      simp only [b64Encode, List.length_cons, b64Encode_length rest]
      omega

theorem maskFrom_length (key : List Nat) (i : Nat) (p : List Nat) :
    (maskFrom key i p).length = p.length := by
  induction p generalizing i with
  | nil => rfl
  | cons b rest ih => simp [maskFrom, ih]

theorem maskFrom_maskFrom (key : List Nat) (i : Nat) (p : List Nat) :
    maskFrom key i (maskFrom key i p) = p := by
  induction p generalizing i with
  | nil => rfl
  | cons b rest ih => simp [maskFrom, ih, Nat.xor_cancel_right]

theorem beVal_append_last (l : List Nat) (x : Nat) :
    beVal (l ++ [x]) = beVal l * 256 + x := by
  simp [beVal, List.foldl_append]

theorem beVal_beBytes (k v : Nat) : beVal (beBytes k v) = v % 256 ^ k := by
  induction k generalizing v with
  | zero => simp [beBytes, beVal, Nat.mod_one]
  | succ k ih =>
    rw [beBytes, beVal_append_last, ih, pow_succ,
      Nat.mul_comm (256 ^ k) 256, Nat.mod_mul]
    ring

theorem lenCode_le (n : Nat) : lenCode n ≤ 127 := by
  unfold lenCode; split <;> [omega; split <;> omega]

theorem readLen_lenExt (n : Nat) (tail : List Nat) (h : n < 2 ^ 63) :
    readLen (lenCode n) (lenExt n ++ tail) = some (n, tail) := by
  by_cases h1 : n ≤ 125
  · simp [lenCode, lenExt, readLen, h1]
  · by_cases h2 : n ≤ 65535
    · have hb : beBytes 2 n = [n / 256 % 256, n % 256] := by simp [beBytes]
      simp only [lenCode, lenExt, if_neg h1, if_pos h2, readLen, hb]
      norm_num
      omega
    · have h8 : (beBytes 8 n).length = 8 := beBytes_length 8 n
      simp only [lenCode, lenExt, if_neg h1, if_neg h2, readLen]
      rw [if_neg (by omega), if_neg (by omega),
        if_pos (by simp [List.length_append, h8]),
        List.take_left' h8, List.drop_left' h8, beVal_beBytes]
      have hmod : n % 256 ^ 8 = n := Nat.mod_eq_of_lt (by omega)
      rw [hmod, if_pos h]

theorem Opcode.toNat_lt (op : Opcode) : op.toNat < 16 := by
  cases op <;> decide

theorem Opcode.ofNat?_toNat (op : Opcode) : Opcode.ofNat? op.toNat = some op := by
  cases op <;> rfl

/-! ## Claim theorems -/

/-- C1: for every input string `k`, `sign k` is the standard base64
encoding of the 20-byte SHA-1 digest of the bytes of `k` followed by the
bytes of the fixed GUID `258EAFA5-E914-47DA-95CA-C5AB0DC85B11`. -/
theorem sign_is_b64_sha1_key_guid (k : String) :
    sign k = String.mk (b64Encode (sha1 (strBytes k ++ strBytes wsGuid))) :=
  sign_eq k

set_option maxRecDepth 100000 in
/-- C2: `sign` on the RFC 6455 sample key `"dGhlIHNhbXBsZSBub25jZQ=="`
returns exactly `"s3pPLMBiTxaQ9kYGzzhZRbK+xOo="`. -/
theorem sign_sample_nonce :
    sign "dGhlIHNhbXBsZSBub25jZQ==" = "s3pPLMBiTxaQ9kYGzzhZRbK+xOo=" := by
  decide

/-- C3: `Config::default()` sets `write_buffer_size` to 128 KiB,
`max_write_buffer_size` to `usize::MAX` (unbounded),
`accept_unmasked_frames` to `false`, `max_message_size` to 64 MiB and
`max_frame_size` to 16 MiB. -/
theorem config_default_values :
    Config.default.write_buffer_size = 131072 ∧
    Config.default.max_write_buffer_size = USIZE_MAX ∧
    Config.default.accept_unmasked_frames = false ∧
    Config.default.max_message_size = some 67108864 ∧
    Config.default.max_frame_size = some 16777216 := by
  refine ⟨rfl, rfl, rfl, rfl, rfl⟩

/-- C4: masking a payload with a 4-byte key and masking the result again
with the same key gives back the original payload: the XOR masking
operation is self-inverse. -/
theorem maskBytes_self_inverse (key payload : List Nat)
    (_h : key.length = 4) :
    maskBytes key (maskBytes key payload) = payload :=
  maskFrom_maskFrom key 0 payload

/-- Witness for C4 at key `[1, 2, 3, 4]` and payload `[5, 6, 7]`. -/
theorem maskBytes_self_inverse_witness :
    ([1, 2, 3, 4] : List Nat).length = 4 ∧
    maskBytes [1, 2, 3, 4] (maskBytes [1, 2, 3, 4] [5, 6, 7]) = [5, 6, 7] :=
  ⟨by decide, maskBytes_self_inverse [1, 2, 3, 4] [5, 6, 7] (by decide)⟩

/-- C5: decoding the encoding of any well-formed frame — any payload
length, in particular across the 125/126, 65535 and 64-bit length-field
boundaries — returns a frame with the same `fin`, `opcode`, `masked` flag
and `payload` (and the same mask key); unmasked frames need the decoder's
`accept_unmasked` flag, masked frames round-trip either way. -/
theorem frame_decode_encode (f : Frame) (accept : Bool) (hwf : f.wf)
    (hacc : f.masked = false → accept = true) :
    Frame.decode accept f.encode = some f := by
  obtain ⟨fin, op, masked, key, payload⟩ := f
  obtain ⟨hlen, hctl, hkey, hkey0⟩ := hwf
  simp only at hlen hctl hkey hkey0 hacc
  have ht := Opcode.toNat_lt op
  have hlc := lenCode_le payload.length
  have h1 : ((if fin = true then (128 : Nat) else 0) + op.toNat) / 16 % 8 = 0 := by
    cases fin <;> simp <;> omega
  have h2 : ((if fin = true then (128 : Nat) else 0) + op.toNat) % 16 = op.toNat := by
    cases fin <;> simp <;> omega
  have h3 : decide (128 ≤ (if fin = true then (128 : Nat) else 0) + op.toNat) = fin := by
    cases fin <;> (simp; all_goals omega)
  have h4 : decide (128 ≤ (if masked = true then (128 : Nat) else 0)
      + lenCode payload.length) = masked := by
    cases masked <;> (simp; all_goals omega)
  have h5 : ((if masked = true then (128 : Nat) else 0) + lenCode payload.length) % 128
      = lenCode payload.length := by
    cases masked <;> simp <;> omega
  simp only [Frame.encode, Frame.decode]
  rw [if_neg (by simp [h1]), h2, Opcode.ofNat?_toNat]
  simp only [h3, h4, h5]
  rw [readLen_lenExt _ _ hlen]
  simp only
  rw [if_neg (by
    rintro ⟨hc, hbad⟩
    obtain ⟨hf, hn⟩ := hctl hc
    rcases hbad with hb | hb
    · rw [hf] at hb; exact Bool.noConfusion hb
    · omega)]
  rw [if_neg (by
    rintro ⟨hm, ha⟩
    rw [hacc hm] at ha
    exact Bool.noConfusion ha)]
  cases masked with
  | true =>
    have hk4 : key.length = 4 := hkey rfl
    simp only [if_pos rfl, if_true]
    rw [if_pos (by
      simp [List.length_append, maskBytes, maskFrom_length, hk4])]
    rw [List.take_left' hk4, List.drop_left' hk4]
    simp only [maskBytes, maskFrom_maskFrom]
  | false =>
    have hk0 : key = [] := hkey0 rfl
    simp [hk0]

set_option maxRecDepth 1000000 in
/-- Witness for C5: a masked text frame and the hypotheses of the
round-trip theorem checked at it. -/
theorem frame_decode_encode_witness :
    (Frame.mk true .text true [1, 2, 3, 4] (List.replicate 126 7)).wf ∧
    ((Frame.mk true .text true [1, 2, 3, 4] (List.replicate 126 7)).masked = false
        → false = true) ∧
    Frame.decode false (Frame.mk true .text true [1, 2, 3, 4]
        (List.replicate 126 7)).encode
      = some (Frame.mk true .text true [1, 2, 3, 4] (List.replicate 126 7)) :=
  ⟨by decide, by decide,
    frame_decode_encode (Frame.mk true .text true [1, 2, 3, 4]
      (List.replicate 126 7)) false (by decide) (by decide)⟩

/-- C6: the WebSocket built by `WebSocketContext::new(k).connect_with(c, h)`
stores `sign k` — the signed key, not the raw key — as its
`sec_websocket_key`. -/
theorem connect_with_signs_key {T H : Type} (k : String) (c : Config)
    (h : T) (ih : T → H) :
    ((WebSocketContext.new k).connect_with c h ih).sec_websocket_key
      = sign k :=
  rfl

/-- C7: `connect_with` stores the supplied config unchanged: every field of
the WebSocket's config equals the corresponding field of the argument. -/
theorem connect_with_preserves_config {T H : Type} (k : String) (c : Config)
    (h : T) (ih : T → H) :
    (((WebSocketContext.new k).connect_with c h ih).config.write_buffer_size
        = c.write_buffer_size) ∧
    (((WebSocketContext.new k).connect_with c h ih).config.max_write_buffer_size
        = c.max_write_buffer_size) ∧
    (((WebSocketContext.new k).connect_with c h ih).config.accept_unmasked_frames
        = c.accept_unmasked_frames) ∧
    (((WebSocketContext.new k).connect_with c h ih).config.max_message_size
        = c.max_message_size) ∧
    (((WebSocketContext.new k).connect_with c h ih).config.max_frame_size
        = c.max_frame_size) :=
  ⟨rfl, rfl, rfl, rfl, rfl⟩

/-- C8: `sign` is a pure function of its argument — two runs on equal
inputs give equal outputs, and in this embedding its value depends on
nothing but the argument. -/
theorem sign_deterministic (k₁ k₂ : String) (h : k₁ = k₂) :
    sign k₁ = sign k₂ := by
  rw [h]

/-- Witness for C8 at key `"a"`. -/
theorem sign_deterministic_witness : sign "a" = sign "a" :=
  sign_deterministic "a" "a" rfl

/-- C9: `connect(handler)` equals `connect_with(Config::default(), handler)`
on the same context: the one-argument path is the two-argument path with
the default config. -/
theorem connect_eq_connect_with_default {T H : Type} (k : String)
    (h : T) (ih : T → H) :
    (WebSocketContext.new k).connect h ih
      = (WebSocketContext.new k).connect_with Config.default h ih :=
  rfl

/-- C10: `sign` always returns a 28-character string: base64 with padding
of the 20-byte SHA-1 digest. -/
theorem sign_length (k : String) : (sign k).length = 28 := by
  rw [sign_eq]
  simp [String.length, b64Encode_length, sha1_length]

end Mews
